import Mathlib

/-!
Verification of `serde_kafka_primitives` (Rust): a big-endian fixed-width
signed-integer codec (`src/io.rs`, `KafkaSerializer` / `KafkaDeserializer`)
plus serde newtype wrappers (`src/int.rs`, `KafkaInt8/16/32/64`).

Shallow embedding conventions:
  * a Rust `u8` is a `Nat` (meaningful when `< 256`);
  * a Rust `iN` is an `Int` (meaningful when in `[-2^(N-1), 2^(N-1))`);
  * the `Write` sink is modelled as an in-memory byte vector (`Vec<u8>`,
    as in the crate's tests and doc examples), so `write_all` always
    succeeds and appends;
  * the `Read` source is modelled as the list of bytes still unread;
    `read_exact` fails (`Option.none`) when fewer bytes remain than
    requested, mirroring `std::io::Read::read_exact` on a cursor;
  * the serde `Serializer` / `Deserializer` traits are modelled as records
    of abstract scalar hooks returning `Except`.
-/

/-- Big-endian byte decomposition: the `n` low-order bytes of `u`,
most-significant first.  This is the byte layout produced by Rust's
`iN::to_be_bytes` once the value is reduced to its unsigned bit pattern. -/
def bytesBE : Nat → Nat → List Nat
  | 0, _ => []
  | n + 1, u => bytesBE n (u / 256) ++ [u % 256]

/-- Big-endian recomposition of a byte list into an unsigned number
(most-significant byte first), as done by Rust's `iN::from_be_bytes`
before sign reinterpretation. -/
def beToNat (bs : List Nat) : Nat :=
  bs.foldl (fun acc b => acc * 256 + b) 0

/-- The `w`-bit two's-complement bit pattern of `v`, as a `Nat` in
`[0, 2^w)`.  Rust: the unsigned reinterpretation `v as uN` of an `iN`. -/
def wrapTC (w : Nat) (v : Int) : Nat :=
  (v % ((2 : Int) ^ w)).toNat

/-- Signed reinterpretation of a `w`-bit pattern `u ∈ [0, 2^w)`.
Rust: `u as iN` for a `uN` value `u` (two's complement). -/
def unwrapTC (w : Nat) (u : Nat) : Int :=
  if u < 2 ^ (w - 1) then (u : Int) else (u : Int) - 2 ^ w

/-- `iN::to_be_bytes` for a width of `n` bytes: the big-endian bytes of
the `8*n`-bit two's-complement pattern of `v`. -/
def toBeBytes (n : Nat) (v : Int) : List Nat :=
  bytesBE n (wrapTC (8 * n) v)

/-- `iN::from_be_bytes` for a width of `n` bytes: big-endian
two's-complement interpretation of the byte list. -/
def fromBeBytes (n : Nat) (bs : List Nat) : Int :=
  unwrapTC (8 * n) (beToNat bs)

/-- `KafkaSerializer<W>` from `src/io.rs`, with the sink `W` instantiated
to an in-memory byte vector: `writer` holds the bytes written so far. -/
structure KafkaSerializer where
  writer : List Nat
deriving DecidableEq, Repr

namespace KafkaSerializer

/-- `KafkaSerializer::new` over a fresh sink. -/
def new (writer : List Nat) : KafkaSerializer :=
  { writer := writer }

/-- `write_i32`: `self.writer.write_all(&val.to_be_bytes())`. -/
def write_i32 (s : KafkaSerializer) (val : Int) : KafkaSerializer :=
  { writer := s.writer ++ toBeBytes 4 val }

/-- `write_i16`: `self.writer.write_all(&val.to_be_bytes())`. -/
def write_i16 (s : KafkaSerializer) (val : Int) : KafkaSerializer :=
  { writer := s.writer ++ toBeBytes 2 val }

/-- `write_i64`: `self.writer.write_all(&val.to_be_bytes())`. -/
def write_i64 (s : KafkaSerializer) (val : Int) : KafkaSerializer :=
  { writer := s.writer ++ toBeBytes 8 val }

/-- `write_i8`: `self.writer.write_all(&[val as u8])`. -/
def write_i8 (s : KafkaSerializer) (val : Int) : KafkaSerializer :=
  { writer := s.writer ++ [wrapTC 8 val] }

end KafkaSerializer

/-- `KafkaDeserializer<R>` from `src/io.rs`, with the source `R`
instantiated to an in-memory cursor: `reader` holds the bytes not yet
consumed. -/
structure KafkaDeserializer where
  reader : List Nat
deriving DecidableEq, Repr

/-- `std::io::Read::read_exact` into a buffer of `n` bytes over an
in-memory source: succeeds with the first `n` bytes and the advanced
source iff at least `n` bytes remain. -/
def readExact (n : Nat) (d : KafkaDeserializer) :
    Option (List Nat × KafkaDeserializer) :=
  if n ≤ d.reader.length then
    some (d.reader.take n, ⟨d.reader.drop n⟩)
  else
    none

namespace KafkaDeserializer

/-- `KafkaDeserializer::new`. -/
def new (reader : List Nat) : KafkaDeserializer :=
  { reader := reader }

/-- `read_i32`: `read_exact` into a 4-byte buffer, then
`i32::from_be_bytes(buf)`; the `?` propagates the short-read error. -/
def read_i32 (d : KafkaDeserializer) : Option (Int × KafkaDeserializer) :=
  match readExact 4 d with
  | some (buf, d') => some (fromBeBytes 4 buf, d')
  | none => none

/-- `read_i16`: `read_exact` into a 2-byte buffer, then
`i16::from_be_bytes(buf)`. -/
def read_i16 (d : KafkaDeserializer) : Option (Int × KafkaDeserializer) :=
  match readExact 2 d with
  | some (buf, d') => some (fromBeBytes 2 buf, d')
  | none => none

/-- `read_i64`: `read_exact` into an 8-byte buffer, then
`i64::from_be_bytes(buf)`. -/
def read_i64 (d : KafkaDeserializer) : Option (Int × KafkaDeserializer) :=
  match readExact 8 d with
  | some (buf, d') => some (fromBeBytes 8 buf, d')
  | none => none

/-- `read_i8`: `read_exact` into a 1-byte buffer, then `buf[0] as i8`
(signed reinterpretation of the single byte). -/
def read_i8 (d : KafkaDeserializer) : Option (Int × KafkaDeserializer) :=
  match readExact 1 d with
  | some (buf, d') => some (unwrapTC 8 (buf.headD 0), d')
  | none => none

end KafkaDeserializer

/-! ### Arithmetic facts about the byte-level helpers -/

theorem bytesBE_length (n u : Nat) : (bytesBE n u).length = n := by
  induction n generalizing u with
  | zero => rfl
  | succ n ih => simp [bytesBE, ih]

theorem bytesBE_mem_lt (n u : Nat) : ∀ b ∈ bytesBE n u, b < 256 := by
  induction n generalizing u with
  | zero => simp [bytesBE]
  | succ n ih =>
    intro b hb
    have hb' : b ∈ bytesBE n (u / 256) ∨ b = u % 256 := by
      simpa [bytesBE] using hb
    rcases hb' with h | rfl
    · exact ih _ _ h
    · exact Nat.mod_lt _ (by norm_num)

theorem beToNat_append_single (bs : List Nat) (b : Nat) :
    beToNat (bs ++ [b]) = beToNat bs * 256 + b := by
  simp [beToNat, List.foldl_append]

theorem beToNat_bytesBE (n u : Nat) (h : u < 2 ^ (8 * n)) :
    beToNat (bytesBE n u) = u := by
  induction n generalizing u with
  | zero =>
    interval_cases u
    rfl
  | succ n ih =>
    have hdiv : u / 256 < 2 ^ (8 * n) := by
      rw [Nat.div_lt_iff_lt_mul (by norm_num)]
      calc u < 2 ^ (8 * (n + 1)) := h
        _ = 2 ^ (8 * n) * 256 := by ring
    rw [bytesBE, beToNat_append_single, ih _ hdiv]
    omega

theorem bytesBE_beToNat (bs : List Nat) (h : ∀ b ∈ bs, b < 256) :
    bytesBE bs.length (beToNat bs) = bs := by
  induction bs using List.reverseRecOn with
  | nil => rfl
  | append_singleton xs b ih =>
    have hb : b < 256 := h b (by simp)
    have hxs : ∀ x ∈ xs, x < 256 := fun x hx => h x (by simp [hx])
    have hdiv : (beToNat xs * 256 + b) / 256 = beToNat xs := by
      omega
    have hmod : (beToNat xs * 256 + b) % 256 = b := by
      omega
    simp only [List.length_append, List.length_singleton,
      beToNat_append_single, bytesBE, hdiv, hmod, ih hxs]

theorem beToNat_lt (bs : List Nat) (h : ∀ b ∈ bs, b < 256) :
    beToNat bs < 2 ^ (8 * bs.length) := by
  induction bs using List.reverseRecOn with
  | nil => simp [beToNat]
  | append_singleton xs b ih =>
    have hb : b < 256 := h b (by simp)
    have hxs : ∀ x ∈ xs, x < 256 := fun x hx => h x (by simp [hx])
    have hx := ih hxs
    rw [beToNat_append_single]
    calc beToNat xs * 256 + b < (beToNat xs + 1) * 256 := by omega
      _ ≤ 2 ^ (8 * xs.length) * 256 := by
          exact Nat.mul_le_mul_right 256 hx
      _ = 2 ^ (8 * (xs ++ [b]).length) := by
          simp [List.length_append]
          ring

theorem wrapTC_lt (w : Nat) (v : Int) : wrapTC w v < 2 ^ w := by
  have hpos : (0 : Int) < 2 ^ w := by positivity
  have hlt : v % ((2 : Int) ^ w) < 2 ^ w := Int.emod_lt_of_pos v hpos
  have : ((wrapTC w v : Nat) : Int) < ((2 ^ w : Nat) : Int) := by
    rw [wrapTC, Int.toNat_of_nonneg (Int.emod_nonneg v (ne_of_gt hpos))]
    push_cast
    exact hlt
  exact_mod_cast this

theorem unwrapTC_wrapTC (w : Nat) (v : Int) (hw : 0 < w)
    (hlo : -(2 ^ (w - 1)) ≤ v) (hhi : v < 2 ^ (w - 1)) :
    unwrapTC w (wrapTC w v) = v := by
  have hsplit : 2 ^ w = 2 ^ (w - 1) * 2 := by
    rw [← pow_succ]
    congr 1
    omega
  have hposZ : (0 : Int) < 2 ^ w := by positivity
  rcases le_or_lt 0 v with hv | hv
  · have hvlt : v < 2 ^ w := by
      calc v < 2 ^ (w - 1) := hhi
        _ ≤ 2 ^ w := by
            exact_mod_cast Nat.pow_le_pow_right (by norm_num) (by omega)
    have hmod : v % ((2 : Int) ^ w) = v := Int.emod_eq_of_lt hv hvlt
    have hwrap : (wrapTC w v : Int) = v := by
      rw [wrapTC, hmod, Int.toNat_of_nonneg hv]
    have hsmall : wrapTC w v < 2 ^ (w - 1) := by
      have : ((wrapTC w v : Nat) : Int) < ((2 ^ (w - 1) : Nat) : Int) := by
        rw [hwrap]
        push_cast
        exact hhi
      exact_mod_cast this
    rw [unwrapTC, if_pos hsmall, hwrap]
  · have hge : (0 : Int) ≤ v + 2 ^ w := by
      have : (2 : Int) ^ (w - 1) ≤ 2 ^ w := by
        exact_mod_cast Nat.pow_le_pow_right (by norm_num) (by omega)
      omega
    have hlt2 : v + 2 ^ w < 2 ^ w := by omega
    have hmod : v % ((2 : Int) ^ w) = v + 2 ^ w := by
      have h1 : (v + 2 ^ w) % ((2 : Int) ^ w) = v % ((2 : Int) ^ w) := by
        simp
      rw [← h1, Int.emod_eq_of_lt hge hlt2]
    have hwrap : (wrapTC w v : Int) = v + 2 ^ w := by
      rw [wrapTC, hmod, Int.toNat_of_nonneg hge]
    have hbig : ¬ wrapTC w v < 2 ^ (w - 1) := by
      intro hcon
      have : ((wrapTC w v : Nat) : Int) < ((2 ^ (w - 1) : Nat) : Int) := by
        exact_mod_cast hcon
      rw [hwrap] at this
      push_cast at this
      have hs : (2 : Int) ^ w = 2 ^ (w - 1) * 2 := by
        exact_mod_cast hsplit
      omega
    rw [unwrapTC, if_neg hbig, hwrap]
    ring

theorem wrapTC_unwrapTC (w : Nat) (u : Nat) (hu : u < 2 ^ w) :
    wrapTC w (unwrapTC w u) = u := by
  have hposZ : (0 : Int) < 2 ^ w := by positivity
  have huZ : ((u : Nat) : Int) < 2 ^ w := by exact_mod_cast hu
  rw [unwrapTC]
  split
  · rw [wrapTC, Int.emod_eq_of_lt (by positivity) huZ, Int.toNat_natCast]
  · rw [wrapTC]
    have h1 : ((u : Int) - 2 ^ w) % ((2 : Int) ^ w) = (u : Int) % 2 ^ w :=
      Int.emod_sub_cancel _ _
    rw [h1, Int.emod_eq_of_lt (by positivity) huZ, Int.toNat_natCast]

/-! ### Derived codec facts -/

theorem toBeBytes_length (n : Nat) (v : Int) : (toBeBytes n v).length = n :=
  bytesBE_length n _

theorem fromBeBytes_toBeBytes (n : Nat) (v : Int) (hn : 0 < n)
    (hlo : -(2 ^ (8 * n - 1)) ≤ v) (hhi : v < 2 ^ (8 * n - 1)) :
    fromBeBytes n (toBeBytes n v) = v := by
  rw [toBeBytes, fromBeBytes, beToNat_bytesBE n _ (wrapTC_lt (8 * n) v)]
  exact unwrapTC_wrapTC (8 * n) v (by omega) hlo hhi

theorem toBeBytes_fromBeBytes (n : Nat) (bs : List Nat)
    (hlen : bs.length = n) (hbytes : ∀ b ∈ bs, b < 256) :
    toBeBytes n (fromBeBytes n bs) = bs := by
  rw [toBeBytes, fromBeBytes,
    wrapTC_unwrapTC (8 * n) (beToNat bs) (by simpa [hlen] using beToNat_lt bs hbytes)]
  rw [← hlen]
  exact bytesBE_beToNat bs hbytes

theorem readExact_full (n : Nat) (bs : List Nat) (hlen : bs.length = n) :
    readExact n ⟨bs⟩ = some (bs, ⟨[]⟩) := by
  simp [readExact, hlen]

theorem bytesBE_getElem (n u i : Nat) (hi : i < n) :
    (bytesBE n u)[i]? = some (u / 2 ^ (8 * (n - 1 - i)) % 256) := by
  induction n generalizing u i with
  | zero => omega
  | succ n ih =>
    rcases Nat.lt_or_ge i n with hlt | hge
    · rw [bytesBE,
        List.getElem?_append_left (by rw [bytesBE_length]; exact hlt),
        ih _ _ hlt]
      have hdiv : u / 256 / 2 ^ (8 * (n - 1 - i)) = u / 2 ^ (8 * (n - i)) := by
        rw [Nat.div_div_eq_div_mul]
        congr 1
        have : 256 * 2 ^ (8 * (n - 1 - i)) = 2 ^ (8 + 8 * (n - 1 - i)) := by
          rw [pow_add]
          norm_num
        rw [this]
        congr 1
        omega
      rw [hdiv]
      have he : n + 1 - 1 - i = n - i := by omega
      rw [he]
    · have hieq : i = n := by omega
      subst hieq
      have hlen := bytesBE_length i (u / 256)
      rw [bytesBE,
        List.getElem?_append_right (le_of_eq hlen), hlen,
        Nat.sub_self]
      have h0 : 8 * (i + 1 - 1 - i) = 0 := by omega
      rw [h0]
      simp

theorem read_after_write_i32 (v : Int)
    (hlo : -(2 ^ 31) ≤ v) (hhi : v < 2 ^ 31) :
    (KafkaDeserializer.new
      ((KafkaSerializer.new []).write_i32 v).writer).read_i32 =
      some (v, ⟨[]⟩) := by
  show (KafkaDeserializer.new ([] ++ toBeBytes 4 v)).read_i32 = _
  rw [List.nil_append, KafkaDeserializer.read_i32, KafkaDeserializer.new,
    readExact_full 4 _ (toBeBytes_length 4 v)]
  show some (fromBeBytes 4 (toBeBytes 4 v), (⟨[]⟩ : KafkaDeserializer)) =
    some (v, ⟨[]⟩)
  rw [fromBeBytes_toBeBytes 4 v (by norm_num) hlo hhi]

theorem read_after_write_i16 (v : Int)
    (hlo : -(2 ^ 15) ≤ v) (hhi : v < 2 ^ 15) :
    (KafkaDeserializer.new
      ((KafkaSerializer.new []).write_i16 v).writer).read_i16 =
      some (v, ⟨[]⟩) := by
  show (KafkaDeserializer.new ([] ++ toBeBytes 2 v)).read_i16 = _
  rw [List.nil_append, KafkaDeserializer.read_i16, KafkaDeserializer.new,
    readExact_full 2 _ (toBeBytes_length 2 v)]
  show some (fromBeBytes 2 (toBeBytes 2 v), (⟨[]⟩ : KafkaDeserializer)) =
    some (v, ⟨[]⟩)
  rw [fromBeBytes_toBeBytes 2 v (by norm_num) hlo hhi]

theorem read_after_write_i64 (v : Int)
    (hlo : -(2 ^ 63) ≤ v) (hhi : v < 2 ^ 63) :
    (KafkaDeserializer.new
      ((KafkaSerializer.new []).write_i64 v).writer).read_i64 =
      some (v, ⟨[]⟩) := by
  show (KafkaDeserializer.new ([] ++ toBeBytes 8 v)).read_i64 = _
  rw [List.nil_append, KafkaDeserializer.read_i64, KafkaDeserializer.new,
    readExact_full 8 _ (toBeBytes_length 8 v)]
  show some (fromBeBytes 8 (toBeBytes 8 v), (⟨[]⟩ : KafkaDeserializer)) =
    some (v, ⟨[]⟩)
  rw [fromBeBytes_toBeBytes 8 v (by norm_num) hlo hhi]

theorem read_after_write_i8 (v : Int)
    (hlo : -(2 ^ 7) ≤ v) (hhi : v < 2 ^ 7) :
    (KafkaDeserializer.new
      ((KafkaSerializer.new []).write_i8 v).writer).read_i8 =
      some (v, ⟨[]⟩) := by
  show (KafkaDeserializer.new ([] ++ [wrapTC 8 v])).read_i8 = _
  rw [List.nil_append, KafkaDeserializer.read_i8, KafkaDeserializer.new,
    readExact_full 1 [wrapTC 8 v] (List.length_singleton _)]
  show some (unwrapTC 8 ([wrapTC 8 v].headD 0), (⟨[]⟩ : KafkaDeserializer)) =
    some (v, ⟨[]⟩)
  rw [List.headD_cons, unwrapTC_wrapTC 8 v (by norm_num) hlo hhi]

/-- C1: for every width w ∈ {8,16,32,64} and every value v representable
as a w-bit signed two's-complement integer, writing v with the width-w
write operation (`write_i8`/`write_i16`/`write_i32`/`write_i64`) and then
reading the produced bytes back with the matching read operation
(`read_i8`/`read_i16`/`read_i32`/`read_i64`) yields exactly v (together
with the fully consumed stream). -/
theorem write_then_read_roundtrip_all_widths :
    (∀ v : Int, -(2 ^ 7) ≤ v → v < 2 ^ 7 →
      (KafkaDeserializer.new
        ((KafkaSerializer.new []).write_i8 v).writer).read_i8 =
        some (v, ⟨[]⟩)) ∧
    (∀ v : Int, -(2 ^ 15) ≤ v → v < 2 ^ 15 →
      (KafkaDeserializer.new
        ((KafkaSerializer.new []).write_i16 v).writer).read_i16 =
        some (v, ⟨[]⟩)) ∧
    (∀ v : Int, -(2 ^ 31) ≤ v → v < 2 ^ 31 →
      (KafkaDeserializer.new
        ((KafkaSerializer.new []).write_i32 v).writer).read_i32 =
        some (v, ⟨[]⟩)) ∧
    (∀ v : Int, -(2 ^ 63) ≤ v → v < 2 ^ 63 →
      (KafkaDeserializer.new
        ((KafkaSerializer.new []).write_i64 v).writer).read_i64 =
        some (v, ⟨[]⟩)) :=
  ⟨read_after_write_i8, read_after_write_i16,
   read_after_write_i32, read_after_write_i64⟩

/-- Witness for C1: the round trip evaluated at the extreme points of
each width (minimum and maximum representable values). -/
theorem write_then_read_roundtrip_all_widths_witness :
    ((KafkaDeserializer.new
        ((KafkaSerializer.new []).write_i8 (-(2 ^ 7))).writer).read_i8 =
        some (-(2 ^ 7), ⟨[]⟩)) ∧
    ((KafkaDeserializer.new
        ((KafkaSerializer.new []).write_i8 (2 ^ 7 - 1)).writer).read_i8 =
        some (2 ^ 7 - 1, ⟨[]⟩)) ∧
    ((KafkaDeserializer.new
        ((KafkaSerializer.new []).write_i16 (-(2 ^ 15))).writer).read_i16 =
        some (-(2 ^ 15), ⟨[]⟩)) ∧
    ((KafkaDeserializer.new
        ((KafkaSerializer.new []).write_i16 (2 ^ 15 - 1)).writer).read_i16 =
        some (2 ^ 15 - 1, ⟨[]⟩)) ∧
    ((KafkaDeserializer.new
        ((KafkaSerializer.new []).write_i32 (-(2 ^ 31))).writer).read_i32 =
        some (-(2 ^ 31), ⟨[]⟩)) ∧
    ((KafkaDeserializer.new
        ((KafkaSerializer.new []).write_i32 (2 ^ 31 - 1)).writer).read_i32 =
        some (2 ^ 31 - 1, ⟨[]⟩)) ∧
    ((KafkaDeserializer.new
        ((KafkaSerializer.new []).write_i64 (-(2 ^ 63))).writer).read_i64 =
        some (-(2 ^ 63), ⟨[]⟩)) ∧
    ((KafkaDeserializer.new
        ((KafkaSerializer.new []).write_i64 (2 ^ 63 - 1)).writer).read_i64 =
        some (2 ^ 63 - 1, ⟨[]⟩)) :=
  ⟨write_then_read_roundtrip_all_widths.1 _ (by decide) (by decide),
   write_then_read_roundtrip_all_widths.1 _ (by decide) (by decide),
   write_then_read_roundtrip_all_widths.2.1 _ (by decide) (by decide),
   write_then_read_roundtrip_all_widths.2.1 _ (by decide) (by decide),
   write_then_read_roundtrip_all_widths.2.2.1 _ (by decide) (by decide),
   write_then_read_roundtrip_all_widths.2.2.1 _ (by decide) (by decide),
   write_then_read_roundtrip_all_widths.2.2.2 _ (by decide) (by decide),
   write_then_read_roundtrip_all_widths.2.2.2 _ (by decide) (by decide)⟩

/-- C3: writing the 32-bit value 42 with `write_i32` produces exactly the
byte sequence `[0x00, 0x00, 0x00, 0x2A]`, and reading that sequence back
with `read_i32` returns 42. -/
theorem write_i32_42_bytes_and_back :
    ((KafkaSerializer.new []).write_i32 42).writer =
      [0x00, 0x00, 0x00, 0x2A] ∧
    (KafkaDeserializer.new [0x00, 0x00, 0x00, 0x2A]).read_i32 =
      some (42, ⟨[]⟩) := by
  constructor <;> decide

/-- C4: writing the 8-bit value −5 with `write_i8` produces exactly the
single byte `0xFB`, and reading `0xFB` with `read_i8` returns −5. -/
theorem write_i8_neg5_bytes_and_back :
    ((KafkaSerializer.new []).write_i8 (-5)).writer = [0xFB] ∧
    (KafkaDeserializer.new [0xFB]).read_i8 = some (-5, ⟨[]⟩) := by
  constructor <;> decide

/-! ### Characterisations of the read operations -/

theorem read_i32_eq_some_iff (d : KafkaDeserializer) (v : Int)
    (d' : KafkaDeserializer) :
    d.read_i32 = some (v, d') ↔
      4 ≤ d.reader.length ∧ v = fromBeBytes 4 (d.reader.take 4) ∧
        d' = ⟨d.reader.drop 4⟩ := by
  rw [KafkaDeserializer.read_i32, readExact]
  split_ifs with h
  · show some (fromBeBytes 4 (d.reader.take 4), _) = _ ↔ _
    simp [h, eq_comm, and_comm]
  · simp [h]

theorem read_i16_eq_some_iff (d : KafkaDeserializer) (v : Int)
    (d' : KafkaDeserializer) :
    d.read_i16 = some (v, d') ↔
      2 ≤ d.reader.length ∧ v = fromBeBytes 2 (d.reader.take 2) ∧
        d' = ⟨d.reader.drop 2⟩ := by
  rw [KafkaDeserializer.read_i16, readExact]
  split_ifs with h
  · show some (fromBeBytes 2 (d.reader.take 2), _) = _ ↔ _
    simp [h, eq_comm, and_comm]
  · simp [h]

theorem read_i64_eq_some_iff (d : KafkaDeserializer) (v : Int)
    (d' : KafkaDeserializer) :
    d.read_i64 = some (v, d') ↔
      8 ≤ d.reader.length ∧ v = fromBeBytes 8 (d.reader.take 8) ∧
        d' = ⟨d.reader.drop 8⟩ := by
  rw [KafkaDeserializer.read_i64, readExact]
  split_ifs with h
  · show some (fromBeBytes 8 (d.reader.take 8), _) = _ ↔ _
    simp [h, eq_comm, and_comm]
  · simp [h]

theorem read_i8_eq_some_iff (d : KafkaDeserializer) (v : Int)
    (d' : KafkaDeserializer) :
    d.read_i8 = some (v, d') ↔
      1 ≤ d.reader.length ∧ v = unwrapTC 8 ((d.reader.take 1).headD 0) ∧
        d' = ⟨d.reader.drop 1⟩ := by
  rw [KafkaDeserializer.read_i8, readExact]
  split_ifs with h
  · show some (unwrapTC 8 ((d.reader.take 1).headD 0), _) = _ ↔ _
    simp [h, eq_comm, and_comm]
  · simp [h]

theorem read_i32_eq_none_iff (d : KafkaDeserializer) :
    d.read_i32 = none ↔ d.reader.length < 4 := by
  rw [KafkaDeserializer.read_i32, readExact]
  split_ifs with h
  · simp only [false_iff]
    omega
  · simp only [true_iff]
    omega

theorem read_i16_eq_none_iff (d : KafkaDeserializer) :
    d.read_i16 = none ↔ d.reader.length < 2 := by
  rw [KafkaDeserializer.read_i16, readExact]
  split_ifs with h
  · simp only [false_iff]
    omega
  · simp only [true_iff]
    omega

theorem read_i64_eq_none_iff (d : KafkaDeserializer) :
    d.read_i64 = none ↔ d.reader.length < 8 := by
  rw [KafkaDeserializer.read_i64, readExact]
  split_ifs with h
  · simp only [false_iff]
    omega
  · simp only [true_iff]
    omega

theorem read_i8_eq_none_iff (d : KafkaDeserializer) :
    d.read_i8 = none ↔ d.reader.length < 1 := by
  rw [KafkaDeserializer.read_i8, readExact]
  split_ifs with h
  · simp only [false_iff]
    omega
  · simp only [true_iff]
    omega

/-- C5: a width-w write appends exactly w/8 bytes to the sink, and a
successful width-w read consumes exactly the first w/8 bytes of the
source, advancing the position by that count and leaving every byte
beyond untouched. -/
theorem byte_count_exactness_all_widths :
    (∀ (s : KafkaSerializer) (v : Int), ∃ bs : List Nat,
      bs.length = 1 ∧ (s.write_i8 v).writer = s.writer ++ bs) ∧
    (∀ (s : KafkaSerializer) (v : Int), ∃ bs : List Nat,
      bs.length = 2 ∧ (s.write_i16 v).writer = s.writer ++ bs) ∧
    (∀ (s : KafkaSerializer) (v : Int), ∃ bs : List Nat,
      bs.length = 4 ∧ (s.write_i32 v).writer = s.writer ++ bs) ∧
    (∀ (s : KafkaSerializer) (v : Int), ∃ bs : List Nat,
      bs.length = 8 ∧ (s.write_i64 v).writer = s.writer ++ bs) ∧
    (∀ (d d' : KafkaDeserializer) (v : Int), d.read_i8 = some (v, d') →
      1 ≤ d.reader.length ∧ d'.reader = d.reader.drop 1 ∧
        d.reader = d.reader.take 1 ++ d'.reader ∧
        (d.reader.take 1).length = 1) ∧
    (∀ (d d' : KafkaDeserializer) (v : Int), d.read_i16 = some (v, d') →
      2 ≤ d.reader.length ∧ d'.reader = d.reader.drop 2 ∧
        d.reader = d.reader.take 2 ++ d'.reader ∧
        (d.reader.take 2).length = 2) ∧
    (∀ (d d' : KafkaDeserializer) (v : Int), d.read_i32 = some (v, d') →
      4 ≤ d.reader.length ∧ d'.reader = d.reader.drop 4 ∧
        d.reader = d.reader.take 4 ++ d'.reader ∧
        (d.reader.take 4).length = 4) ∧
    (∀ (d d' : KafkaDeserializer) (v : Int), d.read_i64 = some (v, d') →
      8 ≤ d.reader.length ∧ d'.reader = d.reader.drop 8 ∧
        d.reader = d.reader.take 8 ++ d'.reader ∧
        (d.reader.take 8).length = 8) := by
  refine ⟨fun s v => ⟨[wrapTC 8 v], rfl, rfl⟩,
    fun s v => ⟨toBeBytes 2 v, toBeBytes_length 2 v, rfl⟩,
    fun s v => ⟨toBeBytes 4 v, toBeBytes_length 4 v, rfl⟩,
    fun s v => ⟨toBeBytes 8 v, toBeBytes_length 8 v, rfl⟩,
    fun d d' v h => ?_, fun d d' v h => ?_,
    fun d d' v h => ?_, fun d d' v h => ?_⟩
  · obtain ⟨hlen, -, hd⟩ := (read_i8_eq_some_iff d v d').mp h
    subst hd
    exact ⟨hlen, rfl, (List.take_append_drop 1 d.reader).symm,
      List.length_take_of_le hlen⟩
  · obtain ⟨hlen, -, hd⟩ := (read_i16_eq_some_iff d v d').mp h
    subst hd
    exact ⟨hlen, rfl, (List.take_append_drop 2 d.reader).symm,
      List.length_take_of_le hlen⟩
  · obtain ⟨hlen, -, hd⟩ := (read_i32_eq_some_iff d v d').mp h
    subst hd
    exact ⟨hlen, rfl, (List.take_append_drop 4 d.reader).symm,
      List.length_take_of_le hlen⟩
  · obtain ⟨hlen, -, hd⟩ := (read_i64_eq_some_iff d v d').mp h
    subst hd
    exact ⟨hlen, rfl, (List.take_append_drop 8 d.reader).symm,
      List.length_take_of_le hlen⟩

/-- Witness for C5: a `write_i32` on a non-empty sink appends 4 bytes,
and a `read_i16` on a 3-byte source consumes exactly its first 2 bytes. -/
theorem byte_count_exactness_all_widths_witness :
    (∃ bs : List Nat, bs.length = 4 ∧
      ((KafkaSerializer.new [7]).write_i32 (-1)).writer = [7] ++ bs) ∧
    (2 ≤ ([1, 2, 3] : List Nat).length ∧
      (⟨[3]⟩ : KafkaDeserializer).reader = ([1, 2, 3] : List Nat).drop 2 ∧
      ([1, 2, 3] : List Nat) = ([1, 2, 3] : List Nat).take 2 ++
        (⟨[3]⟩ : KafkaDeserializer).reader ∧
      (([1, 2, 3] : List Nat).take 2).length = 2) :=
  ⟨byte_count_exactness_all_widths.2.2.1 (KafkaSerializer.new [7]) (-1),
   byte_count_exactness_all_widths.2.2.2.2.2.1 ⟨[1, 2, 3]⟩ ⟨[3]⟩
     (unwrapTC 16 (beToNat [1, 2])) (by decide)⟩

/-- C6: each width-w read operation fails with the short-read error
(`none`, the model of `ErrorKind::UnexpectedEof` from `read_exact`) and
returns no value, whenever fewer than w/8 bytes are available. -/
theorem short_read_fails_all_widths :
    (∀ d : KafkaDeserializer, d.reader.length < 1 → d.read_i8 = none) ∧
    (∀ d : KafkaDeserializer, d.reader.length < 2 → d.read_i16 = none) ∧
    (∀ d : KafkaDeserializer, d.reader.length < 4 → d.read_i32 = none) ∧
    (∀ d : KafkaDeserializer, d.reader.length < 8 → d.read_i64 = none) :=
  ⟨fun d h => (read_i8_eq_none_iff d).mpr h,
   fun d h => (read_i16_eq_none_iff d).mpr h,
   fun d h => (read_i32_eq_none_iff d).mpr h,
   fun d h => (read_i64_eq_none_iff d).mpr h⟩

/-- Witness for C6: `read_i32` fails on a 3-byte source, and every width
fails on an empty source. -/
theorem short_read_fails_all_widths_witness :
    (⟨[1, 2, 3]⟩ : KafkaDeserializer).read_i32 = none ∧
    (⟨[]⟩ : KafkaDeserializer).read_i8 = none ∧
    (⟨[]⟩ : KafkaDeserializer).read_i16 = none ∧
    (⟨[1]⟩ : KafkaDeserializer).read_i64 = none :=
  ⟨short_read_fails_all_widths.2.2.1 ⟨[1, 2, 3]⟩ (by decide),
   short_read_fails_all_widths.1 ⟨[]⟩ (by decide),
   short_read_fails_all_widths.2.1 ⟨[]⟩ (by decide),
   short_read_fails_all_widths.2.2.2 ⟨[1]⟩ (by decide)⟩

/-- C7: a width-w read is never partially satisfied: on every source it
either returns an integer reconstructed from exactly the first w/8 bytes
together with the advanced source, or it returns `none` (the short-read
error, carrying no value) — and the error is the immediate result of the
single `read_exact` call, with no internal retry.  The model makes no
claim about the source's position after a failure beyond the absence of
a returned value. -/
theorem read_never_partial_all_widths :
    ∀ d : KafkaDeserializer,
      ((d.reader.length < 1 ∧ d.read_i8 = none) ∨
        (1 ≤ d.reader.length ∧ (d.reader.take 1).length = 1 ∧
          d.read_i8 = some (unwrapTC 8 ((d.reader.take 1).headD 0),
            ⟨d.reader.drop 1⟩))) ∧
      ((d.reader.length < 2 ∧ d.read_i16 = none) ∨
        (2 ≤ d.reader.length ∧ (d.reader.take 2).length = 2 ∧
          d.read_i16 = some (fromBeBytes 2 (d.reader.take 2),
            ⟨d.reader.drop 2⟩))) ∧
      ((d.reader.length < 4 ∧ d.read_i32 = none) ∨
        (4 ≤ d.reader.length ∧ (d.reader.take 4).length = 4 ∧
          d.read_i32 = some (fromBeBytes 4 (d.reader.take 4),
            ⟨d.reader.drop 4⟩))) ∧
      ((d.reader.length < 8 ∧ d.read_i64 = none) ∨
        (8 ≤ d.reader.length ∧ (d.reader.take 8).length = 8 ∧
          d.read_i64 = some (fromBeBytes 8 (d.reader.take 8),
            ⟨d.reader.drop 8⟩))) := by
  intro d
  refine ⟨?_, ?_, ?_, ?_⟩
  · rcases Nat.lt_or_ge d.reader.length 1 with h | h
    · exact Or.inl ⟨h, (read_i8_eq_none_iff d).mpr h⟩
    · exact Or.inr ⟨h, List.length_take_of_le h,
        (read_i8_eq_some_iff d _ _).mpr ⟨h, rfl, rfl⟩⟩
  · rcases Nat.lt_or_ge d.reader.length 2 with h | h
    · exact Or.inl ⟨h, (read_i16_eq_none_iff d).mpr h⟩
    · exact Or.inr ⟨h, List.length_take_of_le h,
        (read_i16_eq_some_iff d _ _).mpr ⟨h, rfl, rfl⟩⟩
  · rcases Nat.lt_or_ge d.reader.length 4 with h | h
    · exact Or.inl ⟨h, (read_i32_eq_none_iff d).mpr h⟩
    · exact Or.inr ⟨h, List.length_take_of_le h,
        (read_i32_eq_some_iff d _ _).mpr ⟨h, rfl, rfl⟩⟩
  · rcases Nat.lt_or_ge d.reader.length 8 with h | h
    · exact Or.inl ⟨h, (read_i64_eq_none_iff d).mpr h⟩
    · exact Or.inr ⟨h, List.length_take_of_le h,
        (read_i64_eq_some_iff d _ _).mpr ⟨h, rfl, rfl⟩⟩

theorem wrapTC_mod_256 (v : Int) : wrapTC 8 v % 256 = wrapTC 8 v :=
  Nat.mod_eq_of_lt (by simpa using wrapTC_lt 8 v)

/-- C2: byte i (0-indexed from the front) of the width-w write output
holds bits [8*(n−1−i), 8*(n−1−i)+7] of the value's two's-complement
representation (`wrapTC (8*n) v`), where n = w/8 — big-endian, with no
separate sign byte; and the width-w read reconstructs its result by
big-endian two's-complement interpretation (`unwrapTC` of `beToNat`) of
the n bytes read. -/
theorem wire_layout_big_endian_all_widths :
    (∀ (v : Int) (i : Nat), i < 1 →
      ((KafkaSerializer.new []).write_i8 v).writer[i]? =
        some (wrapTC 8 v / 2 ^ (8 * (1 - 1 - i)) % 256)) ∧
    (∀ (v : Int) (i : Nat), i < 2 →
      ((KafkaSerializer.new []).write_i16 v).writer[i]? =
        some (wrapTC 16 v / 2 ^ (8 * (2 - 1 - i)) % 256)) ∧
    (∀ (v : Int) (i : Nat), i < 4 →
      ((KafkaSerializer.new []).write_i32 v).writer[i]? =
        some (wrapTC 32 v / 2 ^ (8 * (4 - 1 - i)) % 256)) ∧
    (∀ (v : Int) (i : Nat), i < 8 →
      ((KafkaSerializer.new []).write_i64 v).writer[i]? =
        some (wrapTC 64 v / 2 ^ (8 * (8 - 1 - i)) % 256)) ∧
    (∀ bs : List Nat, bs.length = 1 →
      (KafkaDeserializer.new bs).read_i8 =
        some (unwrapTC 8 (beToNat bs), ⟨[]⟩)) ∧
    (∀ bs : List Nat, bs.length = 2 →
      (KafkaDeserializer.new bs).read_i16 =
        some (unwrapTC 16 (beToNat bs), ⟨[]⟩)) ∧
    (∀ bs : List Nat, bs.length = 4 →
      (KafkaDeserializer.new bs).read_i32 =
        some (unwrapTC 32 (beToNat bs), ⟨[]⟩)) ∧
    (∀ bs : List Nat, bs.length = 8 →
      (KafkaDeserializer.new bs).read_i64 =
        some (unwrapTC 64 (beToNat bs), ⟨[]⟩)) := by
  refine ⟨?_, ?_, ?_, ?_, ?_, ?_, ?_, ?_⟩
  · intro v i hi
    interval_cases i
    show ([] ++ [wrapTC 8 v])[0]? = _
    rw [List.nil_append]
    simp [wrapTC_mod_256 v]
  · intro v i hi
    show ([] ++ toBeBytes 2 v)[i]? = _
    rw [List.nil_append, toBeBytes, bytesBE_getElem 2 _ i hi]
  · intro v i hi
    show ([] ++ toBeBytes 4 v)[i]? = _
    rw [List.nil_append, toBeBytes, bytesBE_getElem 4 _ i hi]
  · intro v i hi
    show ([] ++ toBeBytes 8 v)[i]? = _
    rw [List.nil_append, toBeBytes, bytesBE_getElem 8 _ i hi]
  · intro bs hlen
    rw [KafkaDeserializer.new, KafkaDeserializer.read_i8,
      readExact_full 1 bs hlen]
    show some (unwrapTC 8 (bs.headD 0), (⟨[]⟩ : KafkaDeserializer)) = _
    rcases bs with - | ⟨b, rest⟩
    · simp at hlen
    · rcases rest with - | ⟨c, rest⟩
      · show some (unwrapTC 8 b, _) = _
        rw [show beToNat [b] = b by simp [beToNat]]
      · simp at hlen
  · intro bs hlen
    rw [KafkaDeserializer.new, KafkaDeserializer.read_i16,
      readExact_full 2 bs hlen]
    show some (fromBeBytes 2 bs, (⟨[]⟩ : KafkaDeserializer)) = _
    rw [fromBeBytes]
  · intro bs hlen
    rw [KafkaDeserializer.new, KafkaDeserializer.read_i32,
      readExact_full 4 bs hlen]
    show some (fromBeBytes 4 bs, (⟨[]⟩ : KafkaDeserializer)) = _
    rw [fromBeBytes]
  · intro bs hlen
    rw [KafkaDeserializer.new, KafkaDeserializer.read_i64,
      readExact_full 8 bs hlen]
    show some (fromBeBytes 8 bs, (⟨[]⟩ : KafkaDeserializer)) = _
    rw [fromBeBytes]

/-- Witness for C2: most-significant byte of `write_i32 (-2)` and
big-endian reconstruction of `read_i16` on `[0x12, 0x34]`. -/
theorem wire_layout_big_endian_all_widths_witness :
    ((KafkaSerializer.new []).write_i32 (-2)).writer[0]? =
      some (wrapTC 32 (-2) / 2 ^ (8 * (4 - 1 - 0)) % 256) ∧
    (KafkaDeserializer.new [0x12, 0x34]).read_i16 =
      some (unwrapTC 16 (beToNat [0x12, 0x34]), ⟨[]⟩) :=
  ⟨wire_layout_big_endian_all_widths.2.2.1 (-2) 0 (by decide),
   wire_layout_big_endian_all_widths.2.2.2.2.2.1 [0x12, 0x34] (by decide)⟩

/-! ### The serde wrapper layer (`src/int.rs`)

The external serde framework is format-agnostic: a concrete
`serde::Serializer` is modelled as a record of scalar encode hooks (one
per signed width), each free to produce whatever the active format
chooses, and a concrete `serde::Deserializer` as a record of scalar
decode results.  The wrapper impls in `src/int.rs` are functions over
these records. -/

/-- The scalar half of the `serde::Serializer` trait: one encode hook
per signed integer width, returning the framework's output type or the
framework's own error. -/
structure SerdeSerializer (Ok Err : Type) where
  serialize_i8 : Int → Except Err Ok
  serialize_i16 : Int → Except Err Ok
  serialize_i32 : Int → Except Err Ok
  serialize_i64 : Int → Except Err Ok

/-- The scalar half of the `serde::Deserializer` trait: the result the
framework hands back for each requested signed integer width. -/
structure SerdeDeserializer (Err : Type) where
  deserialize_i8 : Except Err Int
  deserialize_i16 : Except Err Int
  deserialize_i32 : Except Err Int
  deserialize_i64 : Except Err Int

/-- `pub struct KafkaInt8(pub i8)` from `src/int.rs`. -/
structure KafkaInt8 where
  val : Int
deriving DecidableEq, Repr

/-- `pub struct KafkaInt16(pub i16)` from `src/int.rs`. -/
structure KafkaInt16 where
  val : Int
deriving DecidableEq, Repr

/-- `pub struct KafkaInt32(pub i32)` from `src/int.rs`. -/
structure KafkaInt32 where
  val : Int
deriving DecidableEq, Repr

/-- `pub struct KafkaInt64(pub i64)` from `src/int.rs`. -/
structure KafkaInt64 where
  val : Int
deriving DecidableEq, Repr

/-- `impl Serialize for KafkaInt8`: `serializer.serialize_i8(self.0)`. -/
def KafkaInt8.serialize {Ok Err : Type} (x : KafkaInt8)
    (serializer : SerdeSerializer Ok Err) : Except Err Ok :=
  serializer.serialize_i8 x.val

/-- `impl Serialize for KafkaInt16`: `serializer.serialize_i16(self.0)`. -/
def KafkaInt16.serialize {Ok Err : Type} (x : KafkaInt16)
    (serializer : SerdeSerializer Ok Err) : Except Err Ok :=
  serializer.serialize_i16 x.val

/-- `impl Serialize for KafkaInt32`: `serializer.serialize_i32(self.0)`. -/
def KafkaInt32.serialize {Ok Err : Type} (x : KafkaInt32)
    (serializer : SerdeSerializer Ok Err) : Except Err Ok :=
  serializer.serialize_i32 x.val

/-- `impl Serialize for KafkaInt64`: `serializer.serialize_i64(self.0)`. -/
def KafkaInt64.serialize {Ok Err : Type} (x : KafkaInt64)
    (serializer : SerdeSerializer Ok Err) : Except Err Ok :=
  serializer.serialize_i64 x.val

/-- `impl Deserialize for KafkaInt8`:
`let val = i8::deserialize(deserializer)?; Ok(KafkaInt8(val))` —
the `?` operator propagates the framework's error unchanged. -/
def KafkaInt8.deserialize {Err : Type} (deserializer : SerdeDeserializer Err) :
    Except Err KafkaInt8 :=
  match deserializer.deserialize_i8 with
  | .ok val => .ok ⟨val⟩
  | .error e => .error e

/-- `impl Deserialize for KafkaInt16`. -/
def KafkaInt16.deserialize {Err : Type} (deserializer : SerdeDeserializer Err) :
    Except Err KafkaInt16 :=
  match deserializer.deserialize_i16 with
  | .ok val => .ok ⟨val⟩
  | .error e => .error e

/-- `impl Deserialize for KafkaInt32`. -/
def KafkaInt32.deserialize {Err : Type} (deserializer : SerdeDeserializer Err) :
    Except Err KafkaInt32 :=
  match deserializer.deserialize_i32 with
  | .ok val => .ok ⟨val⟩
  | .error e => .error e

/-- `impl Deserialize for KafkaInt64`. -/
def KafkaInt64.deserialize {Err : Type} (deserializer : SerdeDeserializer Err) :
    Except Err KafkaInt64 :=
  match deserializer.deserialize_i64 with
  | .ok val => .ok ⟨val⟩
  | .error e => .error e

/-- A concrete framework instantiation whose active format emits
fixed-width integers least-significant byte first.  Nothing in
`src/int.rs` constrains the framework's byte order, so this is a
legitimate choice of active format; it witnesses the divergence between
the serde path and the big-endian `KafkaSerializer` path. -/
def leFramework : SerdeSerializer (List Nat) Unit where
  serialize_i8 := fun v => .ok (toBeBytes 1 v).reverse
  serialize_i16 := fun v => .ok (toBeBytes 2 v).reverse
  serialize_i32 := fun v => .ok (toBeBytes 4 v).reverse
  serialize_i64 := fun v => .ok (toBeBytes 8 v).reverse

/-- C8: each `KafkaIntN.serialize` hands the wrapped value unchanged to
the framework's own N-bit hook (`serialize_iN`) — its output is whatever
the active framework produces, with no byte-order enforcement and no use
of `KafkaSerializer` — and consequently there is an admissible framework
whose bytes differ from `KafkaSerializer`'s big-endian output for the
same value. -/
theorem serde_delegates_unchanged_all_widths :
    (∀ (Ok Err : Type) (F : SerdeSerializer Ok Err) (x : KafkaInt8),
      x.serialize F = F.serialize_i8 x.val) ∧
    (∀ (Ok Err : Type) (F : SerdeSerializer Ok Err) (x : KafkaInt16),
      x.serialize F = F.serialize_i16 x.val) ∧
    (∀ (Ok Err : Type) (F : SerdeSerializer Ok Err) (x : KafkaInt32),
      x.serialize F = F.serialize_i32 x.val) ∧
    (∀ (Ok Err : Type) (F : SerdeSerializer Ok Err) (x : KafkaInt64),
      x.serialize F = F.serialize_i64 x.val) ∧
    (∃ (F : SerdeSerializer (List Nat) Unit) (x : KafkaInt32),
      x.serialize F ≠
        Except.ok ((KafkaSerializer.new []).write_i32 x.val).writer) :=
  ⟨fun _ _ _ _ => rfl, fun _ _ _ _ => rfl, fun _ _ _ _ => rfl,
   fun _ _ _ _ => rfl,
   ⟨leFramework, ⟨1⟩, by
      intro h
      have hbytes : (toBeBytes 4 1).reverse = toBeBytes 4 1 := by
        simpa using Except.ok.inj h
      revert hbytes
      decide⟩⟩

/-- C9: each `KafkaIntN.deserialize` wraps the framework-produced native
integer unchanged on success, and surfaces the framework's own error
unchanged on failure. -/
theorem serde_decode_wraps_or_surfaces_all_widths :
    (∀ (Err : Type) (D : SerdeDeserializer Err),
      (∀ v : Int, D.deserialize_i8 = .ok v →
        KafkaInt8.deserialize D = .ok ⟨v⟩) ∧
      (∀ e : Err, D.deserialize_i8 = .error e →
        KafkaInt8.deserialize D = .error e)) ∧
    (∀ (Err : Type) (D : SerdeDeserializer Err),
      (∀ v : Int, D.deserialize_i16 = .ok v →
        KafkaInt16.deserialize D = .ok ⟨v⟩) ∧
      (∀ e : Err, D.deserialize_i16 = .error e →
        KafkaInt16.deserialize D = .error e)) ∧
    (∀ (Err : Type) (D : SerdeDeserializer Err),
      (∀ v : Int, D.deserialize_i32 = .ok v →
        KafkaInt32.deserialize D = .ok ⟨v⟩) ∧
      (∀ e : Err, D.deserialize_i32 = .error e →
        KafkaInt32.deserialize D = .error e)) ∧
    (∀ (Err : Type) (D : SerdeDeserializer Err),
      (∀ v : Int, D.deserialize_i64 = .ok v →
        KafkaInt64.deserialize D = .ok ⟨v⟩) ∧
      (∀ e : Err, D.deserialize_i64 = .error e →
        KafkaInt64.deserialize D = .error e)) := by
  refine ⟨fun Err D => ⟨fun v h => ?_, fun e h => ?_⟩,
    fun Err D => ⟨fun v h => ?_, fun e h => ?_⟩,
    fun Err D => ⟨fun v h => ?_, fun e h => ?_⟩,
    fun Err D => ⟨fun v h => ?_, fun e h => ?_⟩⟩ <;>
  · first
    | (rw [KafkaInt8.deserialize, h])
    | (rw [KafkaInt16.deserialize, h])
    | (rw [KafkaInt32.deserialize, h])
    | (rw [KafkaInt64.deserialize, h])

/-- Witness for C9: a framework that decodes the 32-bit value 7
successfully is wrapped unchanged, and one that fails with a unit error
has that error surfaced unchanged. -/
theorem serde_decode_wraps_or_surfaces_all_widths_witness :
    KafkaInt32.deserialize
      (⟨.ok 0, .ok 0, .ok 7, .ok 0⟩ : SerdeDeserializer Unit) =
      .ok ⟨7⟩ ∧
    KafkaInt32.deserialize
      (⟨.ok 0, .ok 0, .error (), .ok 0⟩ : SerdeDeserializer Unit) =
      .error () :=
  ⟨(serde_decode_wraps_or_surfaces_all_widths.2.2.1 Unit
      ⟨.ok 0, .ok 0, .ok 7, .ok 0⟩).1 7 rfl,
   (serde_decode_wraps_or_surfaces_all_widths.2.2.1 Unit
      ⟨.ok 0, .ok 0, .error (), .ok 0⟩).2 () rfl⟩

/-- C10: for every byte sequence of exactly w/8 bytes, the width-w read
succeeds (every bit pattern is a valid integer — there is no
malformed-input case at the codec level), and writing the resulting
integer back reproduces exactly the original bytes. -/
theorem read_then_write_roundtrip_all_widths :
    (∀ bs : List Nat, bs.length = 1 → (∀ b ∈ bs, b < 256) →
      ∃ v : Int, (KafkaDeserializer.new bs).read_i8 = some (v, ⟨[]⟩) ∧
        ((KafkaSerializer.new []).write_i8 v).writer = bs) ∧
    (∀ bs : List Nat, bs.length = 2 → (∀ b ∈ bs, b < 256) →
      ∃ v : Int, (KafkaDeserializer.new bs).read_i16 = some (v, ⟨[]⟩) ∧
        ((KafkaSerializer.new []).write_i16 v).writer = bs) ∧
    (∀ bs : List Nat, bs.length = 4 → (∀ b ∈ bs, b < 256) →
      ∃ v : Int, (KafkaDeserializer.new bs).read_i32 = some (v, ⟨[]⟩) ∧
        ((KafkaSerializer.new []).write_i32 v).writer = bs) ∧
    (∀ bs : List Nat, bs.length = 8 → (∀ b ∈ bs, b < 256) →
      ∃ v : Int, (KafkaDeserializer.new bs).read_i64 = some (v, ⟨[]⟩) ∧
        ((KafkaSerializer.new []).write_i64 v).writer = bs) := by
  refine ⟨?_, ?_, ?_, ?_⟩
  · intro bs hlen hbytes
    rcases bs with - | ⟨b, rest⟩
    · simp at hlen
    rcases rest with - | ⟨c, rest⟩
    · refine ⟨unwrapTC 8 b, ?_, ?_⟩
      · rw [KafkaDeserializer.new, KafkaDeserializer.read_i8,
          readExact_full 1 [b] rfl]
        rfl
      · show [] ++ [wrapTC 8 (unwrapTC 8 b)] = [b]
        rw [List.nil_append,
          wrapTC_unwrapTC 8 b (by simpa using hbytes b (by simp))]
    · simp at hlen
  · intro bs hlen hbytes
    refine ⟨fromBeBytes 2 bs, ?_, ?_⟩
    · rw [KafkaDeserializer.new, KafkaDeserializer.read_i16,
        readExact_full 2 bs hlen]
    · show [] ++ toBeBytes 2 (fromBeBytes 2 bs) = bs
      rw [List.nil_append, toBeBytes_fromBeBytes 2 bs hlen hbytes]
  · intro bs hlen hbytes
    refine ⟨fromBeBytes 4 bs, ?_, ?_⟩
    · rw [KafkaDeserializer.new, KafkaDeserializer.read_i32,
        readExact_full 4 bs hlen]
    · show [] ++ toBeBytes 4 (fromBeBytes 4 bs) = bs
      rw [List.nil_append, toBeBytes_fromBeBytes 4 bs hlen hbytes]
  · intro bs hlen hbytes
    refine ⟨fromBeBytes 8 bs, ?_, ?_⟩
    · rw [KafkaDeserializer.new, KafkaDeserializer.read_i64,
        readExact_full 8 bs hlen]
    · show [] ++ toBeBytes 8 (fromBeBytes 8 bs) = bs
      rw [List.nil_append, toBeBytes_fromBeBytes 8 bs hlen hbytes]

/-- Witness for C10: the sign-bit-set pattern `[0x80]` decodes (to −128)
and re-encodes to itself, and the all-ones 32-bit pattern decodes (to −1)
and re-encodes to itself. -/
theorem read_then_write_roundtrip_all_widths_witness :
    (∃ v : Int,
      (KafkaDeserializer.new [0x80]).read_i8 = some (v, ⟨[]⟩) ∧
      ((KafkaSerializer.new []).write_i8 v).writer = [0x80]) ∧
    (∃ v : Int,
      (KafkaDeserializer.new [0xFF, 0xFF, 0xFF, 0xFF]).read_i32 =
        some (v, ⟨[]⟩) ∧
      ((KafkaSerializer.new []).write_i32 v).writer =
        [0xFF, 0xFF, 0xFF, 0xFF]) :=
  ⟨read_then_write_roundtrip_all_widths.1 [0x80] (by decide) (by decide),
   read_then_write_roundtrip_all_widths.2.2.1 [0xFF, 0xFF, 0xFF, 0xFF]
     (by decide) (by decide)⟩
